import Mathlib

/-!
Verification of `numerical_analysis_methods/iterativemethods/base_method.py`.

The module solves `A·x = b` by fixed-point iteration on the transformed
system `x = B·x + c`.  The transform `system_transform` lives in a separate
module (an external collaborator); here it is passed to `solve` as an
explicit function parameter `st`.  Python floats are modelled by real
numbers (exact arithmetic); `numpy` arrays of length `n` by functions
`Fin n → ℝ`.  All code below is translated from the source; the function
`spec_column_sum_coefficient` is the one definition written from the
spec's words instead, for comparison with `metric_two_coefficient`.
-/

namespace BaseMethod

/-- Vectors: dense 1-D real arrays of length `n`. -/
abbrev Vec (n : ℕ) := Fin n → ℝ

/-- Matrices: dense square 2-D real arrays. -/
abbrev Mat (n : ℕ) := Matrix (Fin n) (Fin n) ℝ

/-- Source constant `MAX_ITERATIONS_COUNT = 1_000_000`. -/
def MAX_ITERATIONS_COUNT : ℕ := 1000000

/-- Model of `np.amax` on a (necessarily nonempty) array: the array sizes
are written `n + 1` throughout because `np.amax` raises on an empty array,
so the source only makes sense for `n ≥ 1`. -/
noncomputable def amax {n : ℕ} (f : Fin (n + 1) → ℝ) : ℝ :=
  Finset.univ.sup' Finset.univ_nonempty f

/-- Source `metric_one_coefficient`: `row_sums[i] += B[i, j]` over the
absolute-value matrix, then `np.amax(row_sums)` — the maximum row sum. -/
noncomputable def metric_one_coefficient {n : ℕ} (B : Mat (n + 1)) : ℝ :=
  amax (fun i => ∑ j, |B i j|)

/-- Source `metric_two_coefficient`: the accumulator `col_sums` is a whole
array and the statement `col_sums += B[i, j]` broadcasts the scalar to
every component, so after both loops every component of `col_sums` equals
the sum of all absolute entries of `B`; `np.amax` then returns that sum. -/
noncomputable def metric_two_coefficient {n : ℕ} (B : Mat (n + 1)) : ℝ :=
  amax (fun _ : Fin (n + 1) => ∑ j, ∑ i, |B i j|)

/-- Source `metric_three_coefficient`: the sum of squares of all entries
(no square root is taken). -/
noncomputable def metric_three_coefficient {n : ℕ} (B : Mat (n + 1)) : ℝ :=
  ∑ i, ∑ j, (B i j) ^ 2

/-- Source `_metric_one_distance`: `np.amax(abs(x - y))`. -/
noncomputable def metric_one_distance {n : ℕ} (x y : Vec (n + 1)) : ℝ :=
  amax (fun i => |x i - y i|)

/-- Source `_metric_two_distance`: `np.sum(abs(x - y))`. -/
noncomputable def metric_two_distance {n : ℕ} (x y : Vec (n + 1)) : ℝ :=
  ∑ i, |x i - y i|

/-- Source `_metric_three_distance`: `math.sqrt(np.sum((x-y) ** 2))`. -/
noncomputable def metric_three_distance {n : ℕ} (x y : Vec (n + 1)) : ℝ :=
  Real.sqrt (∑ i, (x i - y i) ^ 2)

/-- Source `_choose_distance_metric`: try the three coefficients in order;
return the first one strictly below 1 together with the positionally
paired distance function, else `None`. -/
noncomputable def choose_distance_metric {n : ℕ} (B : Mat (n + 1)) :
    Option (ℝ × (Vec (n + 1) → Vec (n + 1) → ℝ)) :=
  if metric_one_coefficient B < 1 then
    some (metric_one_coefficient B, metric_one_distance)
  else if metric_two_coefficient B < 1 then
    some (metric_two_coefficient B, metric_two_distance)
  else if metric_three_coefficient B < 1 then
    some (metric_three_coefficient B, metric_three_distance)
  else
    none

/-- Source `check_convergence`: transform the system and report whether
`_choose_distance_metric` found a certificate.  The external
`system_transform` is the parameter `st`. -/
noncomputable def check_convergence {n : ℕ}
    (st : Mat (n + 1) → Vec (n + 1) → Mat (n + 1) × Vec (n + 1))
    (A : Mat (n + 1)) (b : Vec (n + 1)) : Bool :=
  (choose_distance_metric (st A b).1).isSome

/-- Source `_estimate_error`. -/
noncomputable def estimate_error (alpha first_distance last_distance : ℝ)
    (iter_num : ℕ) : ℝ :=
  let estimation_one := (alpha ^ iter_num / (1 - alpha)) * first_distance
  let estimation_two := (alpha / (1 - alpha)) * last_distance
  if estimation_one < estimation_two then estimation_one else estimation_two

/-- The `while` loop of `solve`, with the remaining allowance
`fuel = MAX_ITERATIONS_COUNT - iter_num` made explicit (the source guard
`iter_num < MAX_ITERATIONS_COUNT` is exactly `fuel ≠ 0`).  The state is
`(x, y, last_distance, iter_num)`.  When `cert = none` the source never
assigns `alpha`, `first_distance`, `last_distance`; the guard
short-circuits before reading them, which here corresponds to the `none`
branch not touching `first_distance`/`last_distance` at all. -/
noncomputable def solve_loop {n : ℕ} (B : Mat (n + 1)) (c : Vec (n + 1))
    (iteration_method : Mat (n + 1) → Vec (n + 1) → Vec (n + 1) → Vec (n + 1))
    (precision : ℝ)
    (cert : Option (ℝ × (Vec (n + 1) → Vec (n + 1) → ℝ)))
    (first_distance : ℝ) :
    ℕ → Vec (n + 1) → Vec (n + 1) → ℝ → ℕ → Vec (n + 1) × ℕ
  | 0, _, y, _, iter_num => (y, iter_num)
  | fuel + 1, _, y, last_distance, iter_num =>
    match cert with
    | none =>
        solve_loop B c iteration_method precision cert first_distance fuel
          y (iteration_method B y c) last_distance (iter_num + 1)
    | some (alpha, calculate_distance) =>
        if estimate_error alpha first_distance last_distance iter_num
            > precision then
          solve_loop B c iteration_method precision cert first_distance fuel
            y (iteration_method B y c)
            (calculate_distance y (iteration_method B y c)) (iter_num + 1)
        else
          (y, iter_num)

/-- Source `solve`.  The external `system_transform` is the parameter
`st`; `iteration_method` is the caller-supplied update rule.  In the
uncertified branch the source leaves `alpha`/`first_distance`/
`last_distance` unassigned (they are never read, see
`uncertified_short_circuit`); the embedding passes the arbitrary value 0
in their place. -/
noncomputable def solve {n : ℕ}
    (st : Mat (n + 1) → Vec (n + 1) → Mat (n + 1) × Vec (n + 1))
    (A : Mat (n + 1)) (b : Vec (n + 1)) (precision : ℝ)
    (iteration_method :
      Mat (n + 1) → Vec (n + 1) → Vec (n + 1) → Vec (n + 1)) :
    Vec (n + 1) × ℕ :=
  match choose_distance_metric (st A b).1 with
  | none =>
      solve_loop (st A b).1 (st A b).2 iteration_method precision none 0
        MAX_ITERATIONS_COUNT (fun _ => 0)
        (iteration_method (st A b).1 (fun _ => 0) (st A b).2) 0 0
  | some (alpha, calculate_distance) =>
      solve_loop (st A b).1 (st A b).2 iteration_method precision
        (some (alpha, calculate_distance))
        (calculate_distance (fun _ => 0)
          (iteration_method (st A b).1 (fun _ => 0) (st A b).2))
        MAX_ITERATIONS_COUNT (fun _ => 0)
        (iteration_method (st A b).1 (fun _ => 0) (st A b).2)
        (calculate_distance (fun _ => 0)
          (iteration_method (st A b).1 (fun _ => 0) (st A b).2)) 0

/-- The sequence of iterates produced by `solve`'s loop: `iter_seq 0` is
the zero start vector, and each step applies the update rule once. -/
noncomputable def iter_seq {n : ℕ} (B : Mat (n + 1)) (c : Vec (n + 1))
    (iteration_method :
      Mat (n + 1) → Vec (n + 1) → Vec (n + 1) → Vec (n + 1)) :
    ℕ → Vec (n + 1)
  | 0 => fun _ => 0
  | m + 1 => iteration_method B (iter_seq B c iteration_method m) c

/-- Distance between consecutive iterates, as measured by a given
distance function. -/
noncomputable def iter_dist {n : ℕ} (B : Mat (n + 1)) (c : Vec (n + 1))
    (iteration_method :
      Mat (n + 1) → Vec (n + 1) → Vec (n + 1) → Vec (n + 1))
    (calculate_distance : Vec (n + 1) → Vec (n + 1) → ℝ) (m : ℕ) : ℝ :=
  calculate_distance (iter_seq B c iteration_method m)
    (iter_seq B c iteration_method (m + 1))

/-- The column-sum coefficient as the spec describes it: for each column,
sum the absolute entries down that column, then take the maximum column
sum (the matrix 1-norm).  Written from the spec's words, as the comparison
point for the source's `metric_two_coefficient`. -/
noncomputable def spec_column_sum_coefficient {n : ℕ} (B : Mat (n + 1)) : ℝ :=
  amax (fun j => ∑ i, |B i j|)

/-- The simple-iteration update rule `y = B·x + c`, the repo's standard
concrete `iteration_method`; used as a concrete input below. -/
noncomputable def simple_iteration {n : ℕ} (B : Mat (n + 1))
    (x c : Vec (n + 1)) : Vec (n + 1) :=
  fun i => (∑ j, B i j * x j) + c i

/-- A concrete instance of the external Transform contract
(`x = B·x + c` iff `A·x = b`, via `B = I - A`, `c = b`); used as a
concrete input below. -/
noncomputable def transform_sub {n : ℕ} (A : Mat (n + 1)) (b : Vec (n + 1)) :
    Mat (n + 1) × Vec (n + 1) :=
  (1 - A, b)

/- ### Helper lemmas about `amax` -/

lemma amax_fin1 (f : Fin 1 → ℝ) : amax f = f 0 :=
  le_antisymm
    (Finset.sup'_le _ _ fun i _ => by rw [Fin.eq_zero i])
    (Finset.le_sup' f (Finset.mem_univ 0))

lemma amax_fin2 (f : Fin 2 → ℝ) : amax f = max (f 0) (f 1) := by
  apply le_antisymm
  · refine Finset.sup'_le _ _ fun i _ => ?_
    fin_cases i
    · exact le_max_left _ _
    · exact le_max_right _ _
  · exact max_le (Finset.le_sup' f (Finset.mem_univ 0))
      (Finset.le_sup' f (Finset.mem_univ 1))

lemma amax_const {n : ℕ} (a : ℝ) : amax (fun _ : Fin (n + 1) => a) = a :=
  Finset.sup'_const _ a

lemma amax_le {n : ℕ} {f : Fin (n + 1) → ℝ} {a : ℝ}
    (h : ∀ i, f i ≤ a) : amax f ≤ a :=
  Finset.sup'_le _ _ fun i _ => h i

lemma le_amax {n : ℕ} (f : Fin (n + 1) → ℝ) (i : Fin (n + 1)) :
    f i ≤ amax f :=
  Finset.le_sup' f (Finset.mem_univ i)

/- ### Helper lemmas about `estimate_error` -/

lemma estimate_error_eq_min (alpha d0 dl : ℝ) (k : ℕ) :
    estimate_error alpha d0 dl k =
      min ((alpha ^ k / (1 - alpha)) * d0) ((alpha / (1 - alpha)) * dl) := by
  unfold estimate_error
  dsimp only
  split_ifs with h
  · exact (min_eq_left h.le).symm
  · exact (min_eq_right (not_lt.mp h)).symm

/- ### Helper lemmas about `choose_distance_metric` -/

lemma choose_eq_none {n : ℕ} {B : Mat (n + 1)}
    (h1 : 1 ≤ metric_one_coefficient B) (h2 : 1 ≤ metric_two_coefficient B)
    (h3 : 1 ≤ metric_three_coefficient B) :
    choose_distance_metric B = none := by
  unfold choose_distance_metric
  rw [if_neg (not_lt.mpr h1), if_neg (not_lt.mpr h2), if_neg (not_lt.mpr h3)]

lemma choose_alpha_lt_one {n : ℕ} {B : Mat (n + 1)} {alpha : ℝ}
    {f : Vec (n + 1) → Vec (n + 1) → ℝ}
    (h : choose_distance_metric B = some (alpha, f)) : alpha < 1 := by
  unfold choose_distance_metric at h
  split_ifs at h with h1 h2 h3
  · cases h
    exact h1
  · cases h
    exact h2
  · cases h
    exact h3

/- ### Helper lemmas about the loop -/

/-- Plain `fuel`-fold application of the update rule, defined with no
reference to the error estimator or to any distance function. -/
noncomputable def applyN {n : ℕ} (B : Mat (n + 1)) (c : Vec (n + 1))
    (iteration_method :
      Mat (n + 1) → Vec (n + 1) → Vec (n + 1) → Vec (n + 1)) :
    ℕ → Vec (n + 1) → Vec (n + 1)
  | 0, y => y
  | fuel + 1, y => applyN B c iteration_method fuel (iteration_method B y c)

lemma applyN_iter_seq {n : ℕ} (B : Mat (n + 1)) (c : Vec (n + 1))
    (rule : Mat (n + 1) → Vec (n + 1) → Vec (n + 1) → Vec (n + 1)) :
    ∀ fuel m, applyN B c rule fuel (iter_seq B c rule m)
      = iter_seq B c rule (m + fuel) := by
  intro fuel
  induction fuel with
  | zero => intro m; rfl
  | succ f ih =>
      intro m
      calc applyN B c rule (f + 1) (iter_seq B c rule m)
          = applyN B c rule f (rule B (iter_seq B c rule m) c) := rfl
        _ = applyN B c rule f (iter_seq B c rule (m + 1)) := rfl
        _ = iter_seq B c rule (m + 1 + f) := ih (m + 1)
        _ = iter_seq B c rule (m + (f + 1)) := by
              rw [show m + 1 + f = m + (f + 1) from by omega]

/-- In the uncertified case the loop ignores the estimator and the
distance state entirely: it just applies the update rule `fuel` times and
adds `fuel` to the counter. -/
lemma solve_loop_none_eq {n : ℕ} (B : Mat (n + 1)) (c : Vec (n + 1))
    (rule : Mat (n + 1) → Vec (n + 1) → Vec (n + 1) → Vec (n + 1))
    (p fd : ℝ) :
    ∀ fuel x y lastd k,
      solve_loop B c rule p none fd fuel x y lastd k
        = (applyN B c rule fuel y, k + fuel) := by
  intro fuel
  induction fuel with
  | zero => intro x y lastd k; rfl
  | succ f ih =>
      intro x y lastd k
      rw [solve_loop]
      rw [ih]
      refine Prod.ext rfl ?_
      omega

/-- Uncertified `solve`: the whole run is the plain `MAX_ITERATIONS_COUNT`-fold
iteration of the update rule, and the returned counter is exactly the cap. -/
lemma solve_uncert {n : ℕ}
    (st : Mat (n + 1) → Vec (n + 1) → Mat (n + 1) × Vec (n + 1))
    (A : Mat (n + 1)) (b : Vec (n + 1)) (p : ℝ)
    (rule : Mat (n + 1) → Vec (n + 1) → Vec (n + 1) → Vec (n + 1))
    (h : choose_distance_metric (st A b).1 = none) :
    solve st A b p rule
      = (iter_seq (st A b).1 (st A b).2 rule (MAX_ITERATIONS_COUNT + 1),
         MAX_ITERATIONS_COUNT) := by
  unfold solve
  rw [h]
  rw [solve_loop_none_eq]
  have h1 : rule (st A b).1 (fun _ => 0) (st A b).2
      = iter_seq (st A b).1 (st A b).2 rule 1 := rfl
  rw [h1, applyN_iter_seq]
  rw [show 1 + MAX_ITERATIONS_COUNT = MAX_ITERATIONS_COUNT + 1 from by omega]
  rfl

/-- Exit analysis of the certified loop, started at the canonical loop
state for counter value `k` (iterates `iter_seq k`, `iter_seq (k+1)` and
the matching consecutive distance).  The loop returns some counter `k'`
with `k ≤ k' ≤ k + fuel`, the returned vector is the `(k'+1)`-st iterate,
and if the cap was not hit the exit was caused by the error estimate
having dropped to `precision` or below. -/
lemma solve_loop_cert_exit {n : ℕ} (B : Mat (n + 1)) (c : Vec (n + 1))
    (rule : Mat (n + 1) → Vec (n + 1) → Vec (n + 1) → Vec (n + 1))
    (p alpha : ℝ) (calcd : Vec (n + 1) → Vec (n + 1) → ℝ) (d0 : ℝ) :
    ∀ fuel k, ∃ kk,
      solve_loop B c rule p (some (alpha, calcd)) d0 fuel
          (iter_seq B c rule k) (iter_seq B c rule (k + 1))
          (iter_dist B c rule calcd k) k
        = (iter_seq B c rule (kk + 1), kk)
      ∧ k ≤ kk ∧ kk ≤ k + fuel
      ∧ (kk < k + fuel →
          estimate_error alpha d0 (iter_dist B c rule calcd kk) kk ≤ p) := by
  intro fuel
  induction fuel with
  | zero =>
      intro k
      refine ⟨k, rfl, le_refl k, by omega, by omega⟩
  | succ f ih =>
      intro k
      rw [solve_loop]
      by_cases hc :
          estimate_error alpha d0 (iter_dist B c rule calcd k) k > p
      · rw [if_pos hc]
        have hy : rule B (iter_seq B c rule (k + 1)) c
            = iter_seq B c rule (k + 1 + 1) := rfl
        rw [hy]
        rw [show calcd (iter_seq B c rule (k + 1)) (iter_seq B c rule (k + 1 + 1))
            = iter_dist B c rule calcd (k + 1) from rfl]
        obtain ⟨kk, heq, hk1, hk2, hk3⟩ := ih (k + 1)
        exact ⟨kk, heq, by omega, by omega, fun hlt => hk3 (by omega)⟩
      · rw [if_neg hc]
        exact ⟨k, rfl, le_refl k, by omega,
          fun _ => not_lt.mp hc⟩

/-- If the error estimate stays above `precision` for every counter value
the fuel allows, the certified loop exhausts its fuel. -/
lemma solve_loop_cert_cap {n : ℕ} (B : Mat (n + 1)) (c : Vec (n + 1))
    (rule : Mat (n + 1) → Vec (n + 1) → Vec (n + 1) → Vec (n + 1))
    (p alpha : ℝ) (calcd : Vec (n + 1) → Vec (n + 1) → ℝ) (d0 : ℝ) :
    ∀ fuel k,
      (∀ m, k ≤ m → m < k + fuel →
        p < estimate_error alpha d0 (iter_dist B c rule calcd m) m) →
      (solve_loop B c rule p (some (alpha, calcd)) d0 fuel
          (iter_seq B c rule k) (iter_seq B c rule (k + 1))
          (iter_dist B c rule calcd k) k).2 = k + fuel := by
  intro fuel
  induction fuel with
  | zero => intro k _; simp [solve_loop]
  | succ f ih =>
      intro k hall
      rw [solve_loop]
      have hc : estimate_error alpha d0 (iter_dist B c rule calcd k) k > p :=
        hall k (le_refl k) (by omega)
      rw [if_pos hc]
      have hy : rule B (iter_seq B c rule (k + 1)) c
          = iter_seq B c rule (k + 1 + 1) := rfl
      rw [hy]
      rw [show calcd (iter_seq B c rule (k + 1)) (iter_seq B c rule (k + 1 + 1))
          = iter_dist B c rule calcd (k + 1) from rfl]
      rw [ih (k + 1) (fun m hm1 hm2 => hall m (by omega) (by omega))]
      omega

/-- Certified `solve`, stated through the exit analysis of the loop. -/
lemma solve_cert {n : ℕ}
    (st : Mat (n + 1) → Vec (n + 1) → Mat (n + 1) × Vec (n + 1))
    (A : Mat (n + 1)) (b : Vec (n + 1)) (p : ℝ)
    (rule : Mat (n + 1) → Vec (n + 1) → Vec (n + 1) → Vec (n + 1))
    (alpha : ℝ) (calcd : Vec (n + 1) → Vec (n + 1) → ℝ)
    (h : choose_distance_metric (st A b).1 = some (alpha, calcd)) :
    ∃ kk,
      solve st A b p rule
        = (iter_seq (st A b).1 (st A b).2 rule (kk + 1), kk)
      ∧ kk ≤ MAX_ITERATIONS_COUNT
      ∧ (kk < MAX_ITERATIONS_COUNT →
          estimate_error alpha
            (iter_dist (st A b).1 (st A b).2 rule calcd 0)
            (iter_dist (st A b).1 (st A b).2 rule calcd kk) kk ≤ p) := by
  unfold solve
  rw [h]
  dsimp only
  have h2 : calcd (fun _ => 0) (rule (st A b).1 (fun _ => 0) (st A b).2)
      = iter_dist (st A b).1 (st A b).2 rule calcd 0 := rfl
  rw [h2]
  obtain ⟨kk, heq, _, hk2, hk3⟩ :=
    solve_loop_cert_exit (st A b).1 (st A b).2 rule p alpha calcd
      (iter_dist (st A b).1 (st A b).2 rule calcd 0) MAX_ITERATIONS_COUNT 0
  refine ⟨kk, ?_, by omega, fun hlt => hk3 (by omega)⟩
  rw [← heq]
  rfl

/- ### Concrete 1-dimensional systems used as inputs below -/

/-- Contraction factor `1 - 10⁻⁷`, strictly below 1 but so close to it
that the a-priori bound cannot drop below 1 within the iteration cap. -/
noncomputable def aN : ℝ := 1 - 1 / 10000000

/-- Concrete input matrix whose `transform_sub` image is `[[aN]]`. -/
noncomputable def Acap : Mat 1 := fun _ _ => 1 / 10000000

/-- Concrete input matrix whose `transform_sub` image is `[[1/2]]`. -/
noncomputable def Ahalf : Mat 1 := fun _ _ => 1 / 2

/-- Concrete input matrix whose `transform_sub` image is `[[1]]` (all
three coefficients equal 1, so no certificate exists). -/
noncomputable def Azero : Mat 1 := fun _ _ => 0

/-- Concrete right-hand side `[1]`. -/
noncomputable def bone : Vec 1 := fun _ => 1

noncomputable def Bcap : Mat 1 := fun _ _ => aN

noncomputable def Bhalf : Mat 1 := fun _ _ => 1 / 2

noncomputable def Bone : Mat 1 := fun _ _ => 1

lemma transform_sub_apply (A : Mat 1) (b : Vec 1) :
    transform_sub A b = (fun _ _ => 1 - A 0 0, b) := by
  unfold transform_sub
  refine Prod.ext ?_ rfl
  funext i j
  rw [Fin.eq_zero i, Fin.eq_zero j]
  simp [Matrix.sub_apply, Matrix.one_apply_eq]

lemma transform_sub_Acap : transform_sub Acap bone = (Bcap, bone) := by
  rw [transform_sub_apply]
  rfl

lemma transform_sub_Ahalf : transform_sub Ahalf bone = (Bhalf, bone) := by
  rw [transform_sub_apply]
  refine Prod.ext ?_ rfl
  funext i j
  norm_num [Ahalf, Bhalf]

lemma transform_sub_Azero : transform_sub Azero bone = (Bone, bone) := by
  rw [transform_sub_apply]
  refine Prod.ext ?_ rfl
  funext i j
  norm_num [Azero, Bone]

/- ### Coefficient evaluation on constant 1×1 matrices -/

lemma metric_one_const1 (a : ℝ) :
    metric_one_coefficient (fun _ _ => a : Mat 1) = |a| := by
  unfold metric_one_coefficient
  rw [amax_fin1, Fin.sum_univ_one]

lemma metric_two_const1 (a : ℝ) :
    metric_two_coefficient (fun _ _ => a : Mat 1) = |a| := by
  unfold metric_two_coefficient
  rw [amax_const, Fin.sum_univ_one, Fin.sum_univ_one]

lemma metric_three_const1 (a : ℝ) :
    metric_three_coefficient (fun _ _ => a : Mat 1) = a ^ 2 := by
  unfold metric_three_coefficient
  rw [Fin.sum_univ_one, Fin.sum_univ_one]

lemma choose_Bone : choose_distance_metric Bone = none := by
  have h1 : metric_one_coefficient Bone = 1 := by
    rw [show Bone = (fun _ _ => (1 : ℝ) : Mat 1) from rfl, metric_one_const1]
    norm_num
  have h2 : metric_two_coefficient Bone = 1 := by
    rw [show Bone = (fun _ _ => (1 : ℝ) : Mat 1) from rfl, metric_two_const1]
    norm_num
  have h3 : metric_three_coefficient Bone = 1 := by
    rw [show Bone = (fun _ _ => (1 : ℝ) : Mat 1) from rfl, metric_three_const1]
    norm_num
  exact choose_eq_none (by rw [h1]) (by rw [h2]) (by rw [h3])

lemma choose_Bhalf :
    choose_distance_metric Bhalf = some (1 / 2, metric_one_distance) := by
  have h1 : metric_one_coefficient Bhalf = 1 / 2 := by
    rw [show Bhalf = (fun _ _ => (1 / 2 : ℝ) : Mat 1) from rfl,
      metric_one_const1]
    norm_num
  unfold choose_distance_metric
  rw [h1, if_pos (by norm_num)]

lemma aN_nonneg : (0 : ℝ) ≤ aN := by norm_num [aN]

lemma choose_Bcap :
    choose_distance_metric Bcap = some (aN, metric_one_distance) := by
  have h1 : metric_one_coefficient Bcap = aN := by
    rw [show Bcap = (fun _ _ => aN : Mat 1) from rfl, metric_one_const1]
    exact abs_of_nonneg aN_nonneg
  unfold choose_distance_metric
  rw [h1, if_pos (by norm_num [aN])]

/- ### The iterates of the capped system -/

lemma cap_step (m : ℕ) :
    iter_seq Bcap bone simple_iteration (m + 1) 0
      = aN * iter_seq Bcap bone simple_iteration m 0 + 1 := by
  show simple_iteration Bcap (iter_seq Bcap bone simple_iteration m) bone 0 = _
  unfold simple_iteration
  rw [Fin.sum_univ_one]
  rfl

lemma cap_diff (m : ℕ) :
    iter_seq Bcap bone simple_iteration (m + 1) 0
      = iter_seq Bcap bone simple_iteration m 0 + aN ^ m := by
  induction m with
  | zero =>
      rw [cap_step]
      show aN * 0 + 1 = 0 + aN ^ 0
      ring
  | succ m ih =>
      rw [cap_step (m + 1)]
      conv_lhs => rw [ih]
      rw [cap_step m]
      ring

lemma cap_dist (m : ℕ) :
    iter_dist Bcap bone simple_iteration metric_one_distance m = aN ^ m := by
  unfold iter_dist metric_one_distance
  rw [amax_fin1, cap_diff m]
  rw [show iter_seq Bcap bone simple_iteration m 0
      - (iter_seq Bcap bone simple_iteration m 0 + aN ^ m)
      = -(aN ^ m) from by ring]
  rw [abs_neg, abs_of_nonneg (pow_nonneg aN_nonneg m)]

lemma aN_pow_lower (m : ℕ) (hm : m ≤ 1000000) : (9 / 10 : ℝ) ≤ aN ^ m := by
  have hb := one_add_mul_le_pow (a := -(1 / 10000000 : ℝ)) (by norm_num) m
  have hc : ((1 : ℝ) + -(1 / 10000000)) = aN := by norm_num [aN]
  rw [hc] at hb
  have hmr : (m : ℝ) ≤ 1000000 := by exact_mod_cast hm
  nlinarith [hb, hmr]

lemma cap_est (m : ℕ) (hm : m < MAX_ITERATIONS_COUNT) :
    (1 : ℝ) < estimate_error aN 1 (aN ^ m) m := by
  have hm' : m + 1 ≤ 1000000 := by
    unfold MAX_ITERATIONS_COUNT at hm
    omega
  have hl := aN_pow_lower m (by omega)
  have hl' := aN_pow_lower (m + 1) hm'
  rw [estimate_error_eq_min, lt_min_iff]
  have hsub : (1 : ℝ) - aN = 1 / 10000000 := by norm_num [aN]
  constructor
  · rw [hsub]
    rw [show aN ^ m / (1 / 10000000) * (1 : ℝ) = aN ^ m * 10000000 from by
      ring]
    linarith
  · rw [hsub]
    rw [show aN / (1 / 10000000) * aN ^ m = aN ^ (m + 1) * 10000000 from by
      rw [pow_succ]; ring]
    linarith

/-- Certified `solve` hits the cap when the estimate never reaches
`precision`. -/
lemma solve_cert_cap {n : ℕ}
    (st : Mat (n + 1) → Vec (n + 1) → Mat (n + 1) × Vec (n + 1))
    (A : Mat (n + 1)) (b : Vec (n + 1)) (p : ℝ)
    (rule : Mat (n + 1) → Vec (n + 1) → Vec (n + 1) → Vec (n + 1))
    (alpha : ℝ) (calcd : Vec (n + 1) → Vec (n + 1) → ℝ)
    (h : choose_distance_metric (st A b).1 = some (alpha, calcd))
    (hall : ∀ m, m < MAX_ITERATIONS_COUNT →
      p < estimate_error alpha (iter_dist (st A b).1 (st A b).2 rule calcd 0)
            (iter_dist (st A b).1 (st A b).2 rule calcd m) m) :
    (solve st A b p rule).2 = MAX_ITERATIONS_COUNT := by
  unfold solve
  rw [h]
  dsimp only
  rw [show calcd (fun _ => 0) (rule (st A b).1 (fun _ => 0) (st A b).2)
      = iter_dist (st A b).1 (st A b).2 rule calcd 0 from rfl]
  have := solve_loop_cert_cap (st A b).1 (st A b).2 rule p alpha calcd
    (iter_dist (st A b).1 (st A b).2 rule calcd 0) MAX_ITERATIONS_COUNT 0
    (fun m hm1 hm2 => hall m (by omega))
  rw [show iter_seq (st A b).1 (st A b).2 rule 0 = (fun _ => 0) from rfl] at this
  rw [show iter_seq (st A b).1 (st A b).2 rule (0 + 1)
      = rule (st A b).1 (fun _ => 0) (st A b).2 from rfl] at this
  rw [this]
  omega

/-- Failing input for the column-sum claim: a 2×2 matrix whose column
sums (4 and 6) differ from its total absolute sum (10). -/
noncomputable def B12 : Mat 2 := fun i j =>
  if i = 0 then (if j = 0 then 1 else 2) else (if j = 0 then 3 else 4)

lemma B12_total : (∑ j : Fin 2, ∑ i : Fin 2, |B12 i j|) = 10 := by
  rw [Fin.sum_univ_two, Fin.sum_univ_two, Fin.sum_univ_two]
  norm_num [B12]

/- ### Claim theorems -/

/-- Claim C1 (code bug evaluation): at `B12 = [[1,2],[3,4]]` the source's
`metric_two_coefficient` returns 10, the sum of all absolute entries,
while the column-sum coefficient the spec describes (and the source's
`col_sums` variable name intends) is 6, the maximum column sum.  The
statement `col_sums += B[i, j]` is missing the index `[j]`. -/
theorem metric_two_coefficient_total_eval :
    metric_two_coefficient B12 = 10 ∧ spec_column_sum_coefficient B12 = 6 := by
  constructor
  · unfold metric_two_coefficient
    rw [amax_const, B12_total]
  · unfold spec_column_sum_coefficient
    rw [amax_fin2, Fin.sum_univ_two, Fin.sum_univ_two]
    norm_num [B12]

/-- Claim C5: `metric_two_coefficient` actually returns the sum of the
absolute values of all entries of `B`; that value upper-bounds the true
maximum column sum (the matrix 1-norm), so a certificate it yields
(value < 1) still implies the 1-norm is below 1 — a sound, if
conservative, contraction bound. -/
theorem metric_two_total_sound {n : ℕ} (B : Mat (n + 1)) :
    metric_two_coefficient B = ∑ i, ∑ j, |B i j|
  ∧ spec_column_sum_coefficient B ≤ metric_two_coefficient B
  ∧ (metric_two_coefficient B < 1 → spec_column_sum_coefficient B < 1) := by
  have htot : metric_two_coefficient B = ∑ j, ∑ i, |B i j| := by
    unfold metric_two_coefficient
    rw [amax_const]
  have hle : spec_column_sum_coefficient B ≤ metric_two_coefficient B := by
    rw [htot]
    unfold spec_column_sum_coefficient
    apply amax_le
    intro j
    exact Finset.single_le_sum (f := fun jj => ∑ i, |B i jj|)
      (fun jj _ => Finset.sum_nonneg fun i _ => abs_nonneg _)
      (Finset.mem_univ j)
  exact ⟨htot.trans Finset.sum_comm, hle,
    fun h => lt_of_le_of_lt hle h⟩

/-- Witness for C5 at the concrete matrix `[[1/2]]`. -/
theorem metric_two_total_sound_witness :
    spec_column_sum_coefficient Bhalf < 1 :=
  (metric_two_total_sound Bhalf).2.2 (by
    rw [show Bhalf = (fun _ _ => (1 / 2 : ℝ) : Mat 1) from rfl,
      metric_two_const1, abs_lt]
    constructor <;> norm_num)

/-- Claim C4: `_choose_distance_metric` tries the three coefficients in
the fixed order 1, 2, 3 and returns the first whose value is strictly
below 1, paired with the distance function of the same index; if the
row-sum coefficient is below 1 the other two are never consulted; if all
three are at least 1 it returns `None`. -/
theorem choose_distance_metric_priority {n : ℕ} (B : Mat (n + 1)) :
    (metric_one_coefficient B < 1 →
      choose_distance_metric B
        = some (metric_one_coefficient B, metric_one_distance))
  ∧ (1 ≤ metric_one_coefficient B → metric_two_coefficient B < 1 →
      choose_distance_metric B
        = some (metric_two_coefficient B, metric_two_distance))
  ∧ (1 ≤ metric_one_coefficient B → 1 ≤ metric_two_coefficient B →
      metric_three_coefficient B < 1 →
      choose_distance_metric B
        = some (metric_three_coefficient B, metric_three_distance))
  ∧ (1 ≤ metric_one_coefficient B → 1 ≤ metric_two_coefficient B →
      1 ≤ metric_three_coefficient B →
      choose_distance_metric B = none) := by
  refine ⟨fun h1 => ?_, fun h1 h2 => ?_, fun h1 h2 h3 => ?_,
    fun h1 h2 h3 => ?_⟩ <;> unfold choose_distance_metric
  · rw [if_pos h1]
  · rw [if_neg (not_lt.mpr h1), if_pos h2]
  · rw [if_neg (not_lt.mpr h1), if_neg (not_lt.mpr h2), if_pos h3]
  · rw [if_neg (not_lt.mpr h1), if_neg (not_lt.mpr h2),
      if_neg (not_lt.mpr h3)]

/-- Witness for C4: the first branch at `[[1/2]]` and the `None` branch
at `[[1]]`. -/
theorem choose_distance_metric_priority_witness :
    choose_distance_metric Bhalf
      = some (metric_one_coefficient Bhalf, metric_one_distance)
  ∧ choose_distance_metric Bone = none := by
  constructor
  · exact (choose_distance_metric_priority Bhalf).1 (by
      rw [show Bhalf = (fun _ _ => (1 / 2 : ℝ) : Mat 1) from rfl,
        metric_one_const1, abs_lt]
      constructor <;> norm_num)
  · exact (choose_distance_metric_priority Bone).2.2.2
      (by rw [show Bone = (fun _ _ => (1 : ℝ) : Mat 1) from rfl,
            metric_one_const1]; norm_num)
      (by rw [show Bone = (fun _ _ => (1 : ℝ) : Mat 1) from rfl,
            metric_two_const1]; norm_num)
      (by rw [show Bone = (fun _ _ => (1 : ℝ) : Mat 1) from rfl,
            metric_three_const1]; norm_num)

/-- Claim C6: for `0 ≤ α < 1`, `_estimate_error` returns the smaller of
the a-priori bound `(α^k / (1-α))·d0` and the a-posteriori bound
`(α / (1-α))·dLast`. -/
theorem estimate_error_is_min (alpha d0 dl : ℝ) (k : ℕ)
    (h0 : 0 ≤ alpha) (h1 : alpha < 1) :
    estimate_error alpha d0 dl k
      = min ((alpha ^ k / (1 - alpha)) * d0) ((alpha / (1 - alpha)) * dl) :=
  estimate_error_eq_min alpha d0 dl k

/-- Witness for C6 at `α = 1/2`, `d0 = dLast = 1`, `k = 0`. -/
theorem estimate_error_is_min_witness :
    estimate_error (1 / 2) 1 1 0
      = min (((1 / 2 : ℝ) ^ 0 / (1 - 1 / 2)) * 1)
          (((1 / 2 : ℝ) / (1 - 1 / 2)) * 1) :=
  estimate_error_is_min (1 / 2) 1 1 0 (by norm_num) (by norm_num)

/-- Claim C7: for fixed `0 ≤ α < 1` and non-negative `d0`, `dLast`, the
estimate is non-increasing in the iteration count `k`. -/
theorem estimate_error_antitone (alpha d0 dl : ℝ) (k kk : ℕ)
    (h0 : 0 ≤ alpha) (h1 : alpha < 1) (hd0 : 0 ≤ d0) (hdl : 0 ≤ dl)
    (hk : k ≤ kk) :
    estimate_error alpha d0 dl kk ≤ estimate_error alpha d0 dl k := by
  rw [estimate_error_eq_min, estimate_error_eq_min]
  refine min_le_min ?_ le_rfl
  have h2 : (0 : ℝ) < 1 - alpha := by linarith
  have h3 : alpha ^ kk ≤ alpha ^ k := pow_le_pow_of_le_one h0 h1.le hk
  rw [div_eq_mul_inv, div_eq_mul_inv]
  exact mul_le_mul_of_nonneg_right
    (mul_le_mul_of_nonneg_right h3 (inv_nonneg.mpr h2.le)) hd0

/-- Witness for C7 at `α = 1/2`, `d0 = dLast = 1`, `k = 0 ≤ 1 = kk`. -/
theorem estimate_error_antitone_witness :
    estimate_error (1 / 2) 1 1 1 ≤ estimate_error (1 / 2) 1 1 0 :=
  estimate_error_antitone (1 / 2) 1 1 0 1 (by norm_num) (by norm_num)
    (by norm_num) (by norm_num) (by norm_num)

/-- Claim C2 is false as stated: the source performs no precondition
validation and raises no `InvalidInput` error.  With `precision = 0`
(violating `precision > 0`) on the uncertified system `A = [[0]]`,
`b = [1]` (transformed matrix `[[1]]`), `solve` does not fail fast before
any iteration: it runs the full 1,000,000 iterations and returns a normal
`(vector, count)` result. -/
theorem solve_no_fail_fast_counterexample :
    ¬ ((0 : ℝ) > 0)
  ∧ (solve transform_sub Azero bone 0 simple_iteration).2
      = MAX_ITERATIONS_COUNT := by
  have hB : (transform_sub Azero bone).1 = Bone := by rw [transform_sub_Azero]
  refine ⟨by norm_num, ?_⟩
  rw [solve_uncert transform_sub Azero bone 0 simple_iteration
    (by rw [hB]; exact choose_Bone)]

/-- Claim C2 (amended): `solve` performs no precondition validation and
never signals an `InvalidInput` error; a call with non-positive precision
proceeds to iterate and returns normally — on an uncertified system it
performs exactly `MAX_ITERATIONS_COUNT` iterations. -/
theorem solve_no_fail_fast {n : ℕ}
    (st : Mat (n + 1) → Vec (n + 1) → Mat (n + 1) × Vec (n + 1))
    (A : Mat (n + 1)) (b : Vec (n + 1)) (p : ℝ)
    (rule : Mat (n + 1) → Vec (n + 1) → Vec (n + 1) → Vec (n + 1))
    (hp : p ≤ 0) (h : choose_distance_metric (st A b).1 = none) :
    (solve st A b p rule).2 = MAX_ITERATIONS_COUNT := by
  rw [solve_uncert st A b p rule h]

/-- Witness for the amended C2 with `precision = -1`. -/
theorem solve_no_fail_fast_witness :
    (solve transform_sub Azero bone (-1) simple_iteration).2
      = MAX_ITERATIONS_COUNT :=
  solve_no_fail_fast transform_sub Azero bone (-1) simple_iteration
    (by norm_num)
    (by rw [show (transform_sub Azero bone).1 = Bone from by
          rw [transform_sub_Azero]]
        exact choose_Bone)

/-- Claim C3 is false as stated: the certified system with transformed
matrix `[[1 - 10⁻⁷]]` (certificate `α = 1 - 10⁻⁷ < 1` via metric 1) and
`precision = 1 > 0` makes `solve` run all 1,000,000 iterations — the
geometric factor decays too slowly for either error bound to reach the
precision within the cap — so `iterationsPerformed` is not strictly less
than `MAX_ITERATIONS` (1,000,000). -/
theorem solve_certified_cap_counterexample :
    choose_distance_metric (transform_sub Acap bone).1
      = some (aN, metric_one_distance)
  ∧ aN < 1
  ∧ (0 : ℝ) < 1
  ∧ (solve transform_sub Acap bone 1 simple_iteration).2
      = MAX_ITERATIONS_COUNT := by
  have hB : (transform_sub Acap bone).1 = Bcap := by rw [transform_sub_Acap]
  have hc : choose_distance_metric (transform_sub Acap bone).1
      = some (aN, metric_one_distance) := by
    rw [hB]
    exact choose_Bcap
  refine ⟨hc, by norm_num [aN], by norm_num, ?_⟩
  apply solve_cert_cap transform_sub Acap bone 1 simple_iteration aN
    metric_one_distance hc
  intro m hm
  rw [hB, show (transform_sub Acap bone).2 = bone from rfl]
  rw [cap_dist 0, cap_dist m, pow_zero]
  exact cap_est m hm

/-- Claim C3 (amended): for a certified system, `solve` returns with
`iterationsPerformed ≤ MAX_ITERATIONS`, and whenever the cap was not hit
the error bound recomputed from the returned iteration count — with `d0`
and `dLast` the distances between the corresponding consecutive
iterates — is at most `precision`.  (Termination below the cap is not
guaranteed in general; see the counterexample.) -/
theorem solve_certified_exit {n : ℕ}
    (st : Mat (n + 1) → Vec (n + 1) → Mat (n + 1) × Vec (n + 1))
    (A : Mat (n + 1)) (b : Vec (n + 1)) (p : ℝ)
    (rule : Mat (n + 1) → Vec (n + 1) → Vec (n + 1) → Vec (n + 1))
    (alpha : ℝ) (calcd : Vec (n + 1) → Vec (n + 1) → ℝ)
    (h : choose_distance_metric (st A b).1 = some (alpha, calcd)) :
    (solve st A b p rule).2 ≤ MAX_ITERATIONS_COUNT
  ∧ ((solve st A b p rule).2 < MAX_ITERATIONS_COUNT →
      estimate_error alpha
        (iter_dist (st A b).1 (st A b).2 rule calcd 0)
        (iter_dist (st A b).1 (st A b).2 rule calcd (solve st A b p rule).2)
        (solve st A b p rule).2 ≤ p) := by
  obtain ⟨kk, heq, hk2, hk3⟩ := solve_cert st A b p rule alpha calcd h
  rw [heq]
  exact ⟨hk2, hk3⟩

/-- Witness for the amended C3 on the certified system with transformed
matrix `[[1/2]]`. -/
theorem solve_certified_exit_witness :
    (solve transform_sub Ahalf bone 1 simple_iteration).2
      ≤ MAX_ITERATIONS_COUNT
  ∧ ((solve transform_sub Ahalf bone 1 simple_iteration).2
        < MAX_ITERATIONS_COUNT →
      estimate_error (1 / 2)
        (iter_dist (transform_sub Ahalf bone).1 (transform_sub Ahalf bone).2
          simple_iteration metric_one_distance 0)
        (iter_dist (transform_sub Ahalf bone).1 (transform_sub Ahalf bone).2
          simple_iteration metric_one_distance
          (solve transform_sub Ahalf bone 1 simple_iteration).2)
        (solve transform_sub Ahalf bone 1 simple_iteration).2 ≤ 1) :=
  solve_certified_exit transform_sub Ahalf bone 1 simple_iteration (1 / 2)
    metric_one_distance
    (by rw [show (transform_sub Ahalf bone).1 = Bhalf from by
          rw [transform_sub_Ahalf]]
        exact choose_Bhalf)

/-- Claim C8: when all three norm coefficients of the transformed matrix
are at least 1, `check_convergence` returns `False` and `solve` still
returns a vector, with the iteration count exactly equal to
`MAX_ITERATIONS_COUNT` (1,000,000). -/
theorem all_coefficients_ge_one_cap {n : ℕ}
    (st : Mat (n + 1) → Vec (n + 1) → Mat (n + 1) × Vec (n + 1))
    (A : Mat (n + 1)) (b : Vec (n + 1)) (p : ℝ)
    (rule : Mat (n + 1) → Vec (n + 1) → Vec (n + 1) → Vec (n + 1))
    (h1 : 1 ≤ metric_one_coefficient (st A b).1)
    (h2 : 1 ≤ metric_two_coefficient (st A b).1)
    (h3 : 1 ≤ metric_three_coefficient (st A b).1) :
    check_convergence st A b = false
  ∧ (solve st A b p rule).2 = MAX_ITERATIONS_COUNT := by
  have hn := choose_eq_none h1 h2 h3
  constructor
  · unfold check_convergence
    rw [hn]
    rfl
  · rw [solve_uncert st A b p rule hn]

/-- Witness for C8 at the system with transformed matrix `[[1]]` (all
three coefficients equal 1). -/
theorem all_coefficients_ge_one_cap_witness :
    check_convergence transform_sub Azero bone = false
  ∧ (solve transform_sub Azero bone 1 simple_iteration).2
      = MAX_ITERATIONS_COUNT := by
  have hB : (transform_sub Azero bone).1 = Bone := by rw [transform_sub_Azero]
  exact all_coefficients_ge_one_cap transform_sub Azero bone 1
    simple_iteration
    (by rw [hB, show Bone = (fun _ _ => (1 : ℝ) : Mat 1) from rfl,
          metric_one_const1]; norm_num)
    (by rw [hB, show Bone = (fun _ _ => (1 : ℝ) : Mat 1) from rfl,
          metric_two_const1]; norm_num)
    (by rw [hB, show Bone = (fun _ _ => (1 : ℝ) : Mat 1) from rfl,
          metric_three_const1]; norm_num)

/-- Claim C9: in an uncertified run the result of `solve` coincides with
a plain `MAX_ITERATIONS_COUNT`-fold application of the update rule
(`iter_seq` is defined with no reference to `_estimate_error`, to any
distance function, or to the `alpha`/`first_distance`/`last_distance`
state), which captures that the short-circuiting guard never evaluates
the estimator or the distances and never reads the unset variables; and
any certificate returned by `_choose_distance_metric` has `α < 1`, so the
division by `1 - α` inside `_estimate_error` is only ever reached with
`α < 1` established. -/
theorem uncertified_short_circuit {n : ℕ}
    (st : Mat (n + 1) → Vec (n + 1) → Mat (n + 1) × Vec (n + 1))
    (A : Mat (n + 1)) (b : Vec (n + 1)) (p : ℝ)
    (rule : Mat (n + 1) → Vec (n + 1) → Vec (n + 1) → Vec (n + 1)) :
    (choose_distance_metric (st A b).1 = none →
      solve st A b p rule
        = (iter_seq (st A b).1 (st A b).2 rule (MAX_ITERATIONS_COUNT + 1),
           MAX_ITERATIONS_COUNT))
  ∧ (∀ alpha calcd,
      choose_distance_metric (st A b).1 = some (alpha, calcd) →
      alpha < 1) :=
  ⟨fun h => solve_uncert st A b p rule h,
   fun _ _ h => choose_alpha_lt_one h⟩

/-- Witness for C9: the uncertified branch at the `[[1]]` system and the
certificate bound at the `[[1/2]]` system. -/
theorem uncertified_short_circuit_witness :
    solve transform_sub Azero bone 1 simple_iteration
      = (iter_seq (transform_sub Azero bone).1 (transform_sub Azero bone).2
          simple_iteration (MAX_ITERATIONS_COUNT + 1),
         MAX_ITERATIONS_COUNT)
  ∧ (1 / 2 : ℝ) < 1 := by
  constructor
  · exact (uncertified_short_circuit transform_sub Azero bone 1
      simple_iteration).1
      (by rw [show (transform_sub Azero bone).1 = Bone from by
            rw [transform_sub_Azero]]
          exact choose_Bone)
  · exact (uncertified_short_circuit transform_sub Ahalf bone 1
      simple_iteration).2 (1 / 2) metric_one_distance
      (by rw [show (transform_sub Ahalf bone).1 = Bhalf from by
            rw [transform_sub_Ahalf]]
          exact choose_Bhalf)

/-- Claim C10: `solve` is deterministic — the transform and the update
rule are pure functions of their arguments in this model, and two calls
with equal inputs return equal `(solution, iterationsPerformed)` pairs. -/
theorem solve_deterministic {n : ℕ}
    (st st' : Mat (n + 1) → Vec (n + 1) → Mat (n + 1) × Vec (n + 1))
    (A A' : Mat (n + 1)) (b b' : Vec (n + 1)) (p p' : ℝ)
    (rule rule' : Mat (n + 1) → Vec (n + 1) → Vec (n + 1) → Vec (n + 1))
    (hst : st = st') (hA : A = A') (hb : b = b') (hp : p = p')
    (hr : rule = rule') :
    solve st A b p rule = solve st' A' b' p' rule' := by
  subst hst hA hb hp hr
  rfl

/-- Witness for C10 at a concrete repeated call. -/
theorem solve_deterministic_witness :
    solve transform_sub Ahalf bone 1 simple_iteration
      = solve transform_sub Ahalf bone 1 simple_iteration :=
  solve_deterministic transform_sub transform_sub Ahalf Ahalf bone bone 1 1
    simple_iteration simple_iteration rfl rfl rfl rfl rfl

end BaseMethod
